import Mathlib

/-!
The VISA read function for MATLAB, `rvisa_implt.cpp`.

A shallow embedding of `MexFunction` from `src/rvisa_implt.cpp`:
the trace parser `parser`, the structured read `read_from` and the entry
point `operator()`.

Conventions of the embedding.

* A `char` is a `Char`; a `char` buffer is seen through an accessor
  `Nat → Option Char` that answers `none` outside the allocated object.
  An access outside the object is undefined behaviour in C++; the model
  stops there with `Fault.outOfBounds`.
* `std::stod` is library code. The parser is parametric in it: a function
  `List Char → Option α` that answers `none` where `std::stod` throws.
  `stodDecimal` is a concrete conversion for plain decimal text, with exact
  rational values.
* The VISA library is an environment `Visa` that fixes the status of every
  call and what `viRead` leaves in the buffer. Every VISA call is recorded
  in a trace.
* `PRINT_ERR` calls the host function `error` through `feval`. Whether that
  call hands control back is a property of the host library, kept as the
  parameter `Host.errorReturns`.
* Console output (`std::cout`, `PRINT_BUFFER`, `PRINT_BUFFER_UNTIL`, `COMP`)
  has no effect on the state and is left out.
* `operator()` is modelled for invocations with three inputs, for which
  `check_arguments` does nothing.
-/

namespace Rvisa

/-! ## Constants -/

/-- The completion code `VI_SUCCESS`; a status below it is a failure. -/
def VI_SUCCESS : Int := 0

/-- The macro `BUFFER_CAP`, `1 << 20`. -/
def BUFFER_CAP : Nat := 1 <<< 20

/-- The macro `CUSTOM_READ_DATA`. -/
def CUSTOM_READ_DATA : List Char := "--RDATA".toList

/-- The value of a `ViInt32` after conversion to `size_t` (64 bits). -/
def toSizeT (n : Int) : Nat := (n % 2 ^ 64).toNat

/-- The value of a `ViInt32` after conversion to `ViUInt32`. -/
def toUInt32 (n : Int) : Nat := (n % 2 ^ 32).toNat

/-! ## Faults -/

/-- The ways in which the code leaves the defined, non-throwing path. -/
inductive Fault where
  /-- The call `std::stod` threw on the given text. -/
  | conversion (token : List Char)
  /-- An access at the given index lies outside the buffer. -/
  | outOfBounds (index : Nat)
  deriving DecidableEq, Repr

/-! ## The parser -/

/-- The C string of `sbuffer`: what `sbuffer.c_str()` denotes once it is
converted to the `std::string` argument of `std::stod`, that is the bytes
before the first NUL. -/
def c_str (sbuffer : List Char) : List Char :=
  sbuffer.takeWhile (fun c => c != '\x00')

/-- The loop `while (i < count)` of `parser`. The first numeric argument is
the number of iterations left, `count - i`. The result is the final
`sbuffer`, the member `data`, and the fault that stopped the loop, if any. -/
def parserLoop {α : Type} (stod : List Char → Option α) (buffer : Nat → Option Char) :
    Nat → Nat → List Char → List α → List Char × List α × Option Fault
  | 0, _, sbuffer, data => (sbuffer, data, none)
  | n + 1, i, sbuffer, data =>
    match buffer i with
    | none => (sbuffer, data, some (Fault.outOfBounds i))
    | some c =>
      if c = ',' then
        match stod (c_str sbuffer) with
        | none => (sbuffer, data, some (Fault.conversion (c_str sbuffer)))
        | some value => parserLoop stod buffer n (i + 1) [] (data ++ [value])
      else
        parserLoop stod buffer n (i + 1) (sbuffer ++ [c]) data

/-- The method `MexFunction::parser`. It returns the member `data` after the
call and the fault raised, if any. -/
def parser {α : Type} (stod : List Char → Option α) (buffer : Nat → Option Char)
    (count : Int) (data : List α) : List α × Option Fault :=
  match parserLoop stod buffer (toSizeT count) 0 [] data with
  | (_, data, some f) => (data, some f)
  | (sbuffer, data, none) =>
    if sbuffer.length > 0 then
      match stod (c_str sbuffer) with
      | none => (data, some (Fault.conversion (c_str sbuffer)))
      | some value => (data ++ [value], none)
    else (data, none)

/-- A buffer given by the list of its bytes. -/
def ofBytes (bytes : List Char) : Nat → Option Char := fun i => bytes[i]?

/-! ## A concrete conversion -/

/-- The value of a string of decimal digits. -/
def digitsValue (ds : List Char) : Nat :=
  ds.foldl (fun n c => 10 * n + (c.toNat - 48)) 0

/-- The characters `isspace` accepts in the C locale. -/
def isSpace (c : Char) : Bool :=
  c = ' ' || c = '\t' || c = '\n' || c = '\x0b' || c = '\x0c' || c = '\r'

/-- The conversion of `std::stod` on plain decimal text: leading white space
is skipped, then an optional sign, digits, and an optional fraction are
read; what follows is ignored. Without any digit no conversion is possible
and `std::stod` throws. The value is the exact rational the text denotes.
Exponents, hexadecimal text, infinities and NaN are outside this model. -/
def stodDecimal (s : List Char) : Option ℚ :=
  let s := s.dropWhile isSpace
  let signed : Bool × List Char :=
    match s with
    | '-' :: t => (true, t)
    | '+' :: t => (false, t)
    | _ => (false, s)
  let ip := signed.2.takeWhile Char.isDigit
  let fp :=
    match signed.2.dropWhile Char.isDigit with
    | '.' :: t => t.takeWhile Char.isDigit
    | _ => []
  if ip.isEmpty && fp.isEmpty then none
  else
    let m : ℚ := (digitsValue (ip ++ fp) : ℚ) / (10 : ℚ) ^ fp.length
    some (if signed.1 then -m else m)

/-! ## The VISA library and the host -/

/-- The host side of `PRINT_ERR`: whether the call of the host function
`error` through `feval` hands control back to the statement after it. -/
structure Host where
  /-- Control comes back after the host has been told of the error. -/
  errorReturns : Bool
  deriving DecidableEq, Repr

/-- A call of the VISA library, with the status it returned. -/
inductive Call where
  | viOpenDefaultRM (status : Int)
  | viOpen (address : List Char) (status : Int)
  | viSetAttribute (name : String) (value : Nat)
  | viWrite (payload : List Char) (status : Int)
  | viRead (capacity : Nat) (status : Int)
  | viStatusDesc (status : Int)
  | viClose
  deriving DecidableEq, Repr

/-- The behaviour of the VISA library and of the instrument behind it during
one invocation. -/
structure Visa where
  /-- The status of `viOpenDefaultRM`. -/
  rmStatus : Int
  /-- The status of `viOpen` for an address. -/
  openStatus : List Char → Int
  /-- The status of `viWrite`, given how many writes came before and the
  bytes written. -/
  writeStatus : Nat → List Char → Int
  /-- The status of `viRead`. -/
  readStatus : Int
  /-- The bytes `viRead` stores at the front of the buffer. -/
  response : List Char
  /-- The value `viRead` stores in `io_bytes`. -/
  readCount : Int

/-- The array `buffer` of `operator()` after `viRead`: `BUFFER_CAP` bytes,
zero-initialised, with the response at the front. -/
def bufferAfterRead (visa : Visa) : Nat → Option Char :=
  fun i => if i < BUFFER_CAP then some (visa.response.getD i '\x00') else none

/-- The observable state of one invocation. -/
structure State (α : Type) where
  /-- The VISA calls made so far, oldest first. -/
  calls : List Call
  /-- The messages handed to the host function `error`. -/
  errors : List String
  /-- The array assigned to `output[0]`, if any. -/
  output : Option (List α)
  /-- The member `data`. -/
  data : List α

/-- How a function is left. -/
inductive Flow (β : Type) where
  /-- A normal return. -/
  | ret (value : β)
  /-- The host function `error` did not hand control back. -/
  | unwind
  /-- An exception of `std::stod`, or undefined behaviour. -/
  | fault (f : Fault)
  deriving DecidableEq, Repr

/-- Record a VISA call. -/
def State.call {α : Type} (s : State α) (c : Call) : State α :=
  { s with calls := s.calls ++ [c] }

/-- The state change of the macro `PRINT_ERR`. -/
def State.PRINT_ERR {α : Type} (s : State α) (str : String) : State α :=
  { s with errors := s.errors ++ [str] }

/-- The array `one_swp_cmd`, terminator included: `sizeof` bytes are written. -/
def one_swp_cmd : List Char := "SNGLS;TS;".toList ++ ['\x00']

/-- The array `tdf_p`, terminator included: `sizeof` bytes are written. -/
def tdf_p : List Char := "TDF P;".toList ++ ['\x00']

/-- The string `q_cmd`; `length()` bytes are written. -/
def q_cmd : List Char := "SPAN, TRA?;".toList

/-- The method `MexFunction::read_from`. -/
def read_from {α : Type} (host : Host) (stod : List Char → Option α) (visa : Visa)
    (s : State α) : State α × Flow Int :=
  let s := s.call (.viWrite one_swp_cmd (visa.writeStatus 0 one_swp_cmd))
  let s := s.call (.viWrite tdf_p (visa.writeStatus 1 tdf_p))
  let status := visa.writeStatus 2 q_cmd
  let s := s.call (.viWrite q_cmd status)
  if status < VI_SUCCESS then
    (s.call (.viStatusDesc status), .ret status)
  else
    let status := visa.readStatus
    let s := s.call (.viRead BUFFER_CAP status)
    if status ≥ VI_SUCCESS then
      match parser stod (bufferAfterRead visa) visa.readCount s.data with
      | (data, some f) => ({ s with data := data }, .fault f)
      | (data, none) => ({ s with data := data }, .ret status)
    else
      let s := s.call (.viStatusDesc status)
      let s := s.PRINT_ERR "Error reading from instrument with read_from()"
      if host.errorReturns then (s, .ret status) else (s, .unwind)

/-- The index at which `operator()` stores the NUL after a successful read in
passthrough mode. The comparison `io_bytes < BUFSIZE` is made in
`ViUInt32`. -/
def terminatorIndex (io_bytes : Int) (BUFSIZE : Nat) : Nat :=
  if toUInt32 io_bytes < BUFSIZE then io_bytes.toNat else BUFSIZE

/-- The end of `operator()`: the array made of `data` goes to `output[0]` and
the instrument session is closed. -/
def deliver {α : Type} (s : State α) : State α × Flow Unit :=
  (({ s with output := some s.data } : State α).call .viClose, .ret ())

/-- The call `data.clear()` of `std::vector`. -/
def vectorClear {α : Type} (_data : List α) : List α := []

/-- The method `MexFunction::operator()` for an invocation with three inputs,
on an object whose member `data` holds `data`. -/
def operator {α : Type} (host : Host) (stod : List Char → Option α) (visa : Visa)
    (gpib_addr_str cmd_str _type_str : List Char) (data : List α) :
    State α × Flow Unit :=
  let s : State α := { calls := [], errors := [], output := none, data := vectorClear data }
  let BUFSIZE := BUFFER_CAP
  let status := visa.rmStatus
  let s := s.call (.viOpenDefaultRM status)
  if status < VI_SUCCESS then
    let s := s.PRINT_ERR "Could not open VISA resource manager."
    if host.errorReturns then (s, .ret ()) else (s, .unwind)
  else
    let status := visa.openStatus gpib_addr_str
    let s := s.call (.viOpen gpib_addr_str status)
    if status < VI_SUCCESS then
      let s := s.call (.viStatusDesc status)
      let s := s.PRINT_ERR "Could not connect to instrument."
      if host.errorReturns then (s, .ret ()) else (s, .unwind)
    else
      let s := s.call (.viSetAttribute "VI_ATTR_TMO_VALUE" 5000)
      let s := s.call (.viSetAttribute "VI_ATTR_TERMCHAR" 10)
      if cmd_str = CUSTOM_READ_DATA then
        match read_from host stod visa s with
        | (s, .ret _) => deliver s
        | (s, .unwind) => (s, .unwind)
        | (s, .fault f) => (s, .fault f)
      else
        let status := visa.writeStatus 0 cmd_str
        let s := s.call (.viWrite cmd_str status)
        if status < VI_SUCCESS then
          let s := s.call (.viStatusDesc status)
          let s := s.PRINT_ERR "Error writing to instrument"
          if host.errorReturns then (s.call .viClose, .ret ()) else (s, .unwind)
        else
          let status := visa.readStatus
          let s := s.call (.viRead BUFSIZE status)
          if status < VI_SUCCESS then
            let s := s.call (.viStatusDesc status)
            let s := s.PRINT_ERR "Error reading from instrument"
            if host.errorReturns then (s.call .viClose, .ret ()) else (s, .unwind)
          else
            let index := terminatorIndex visa.readCount BUFSIZE
            if index < BUFSIZE then deliver s
            else (s, .fault (.outOfBounds index))

/-- An instrument on which every call succeeds and the read delivers the
given bytes. -/
def respond (response : List Char) : Visa :=
  { rmStatus := 0, openStatus := fun _ => 0, writeStatus := fun _ _ => 0,
    readStatus := 0, response := response, readCount := response.length }

/-! ## Wire text -/

/-- Fields joined by commas, without a comma after the last one. -/
def joinFields : List (List Char) → List Char
  | [] => []
  | [f] => f
  | f :: g :: fs => f ++ ',' :: joinFields (g :: fs)

/-- Fields each followed by a comma. -/
def terminateFields : List (List Char) → List Char
  | [] => []
  | f :: fs => f ++ ',' :: terminateFields fs

/-- The comma-separated text of a list of fields, with or without the comma
after the last field. -/
def wireText (fields : List (List Char)) (trailing : Bool) : List Char :=
  if trailing then terminateFields fields else joinFields fields

/-- A field of well-formed wire text: not empty, free of commas and of NUL. -/
def cleanField (f : List Char) : Prop :=
  f ≠ [] ∧ (∀ c ∈ f, c ≠ ',') ∧ (∀ c ∈ f, c ≠ '\x00')

instance (f : List Char) : Decidable (cleanField f) := by
  unfold cleanField
  exact inferInstance

/-- The text of a trace: every sample formatted by `fmt`, joined by commas. -/
def formatTrace {α : Type} (fmt : α → List Char) (xs : List α) (trailing : Bool) :
    List Char :=
  wireText (xs.map fmt) trailing

/-! ## The loop over a list of bytes -/

/-- The loop of `parser` run over the bytes it visits, given as a list. -/
def scan {α : Type} (stod : List Char → Option α) :
    List Char → List Char → List α → List Char × List α × Option Fault
  | [], sbuffer, data => (sbuffer, data, none)
  | c :: cs, sbuffer, data =>
    if c = ',' then
      match stod (c_str sbuffer) with
      | none => (sbuffer, data, some (Fault.conversion (c_str sbuffer)))
      | some value => scan stod cs [] (data ++ [value])
    else
      scan stod cs (sbuffer ++ [c]) data

/-- The method `parser` run over the bytes it visits, given as a list. -/
def parseBytes {α : Type} (stod : List Char → Option α) (bytes : List Char)
    (data : List α) : List α × Option Fault :=
  match scan stod bytes [] data with
  | (_, data, some f) => (data, some f)
  | (sbuffer, data, none) =>
    if sbuffer.length > 0 then
      match stod (c_str sbuffer) with
      | none => (data, some (Fault.conversion (c_str sbuffer)))
      | some value => (data ++ [value], none)
    else (data, none)

/-! ## Traces -/

/-- A write to or a read from the instrument. -/
def Call.isTransfer : Call → Bool
  | .viWrite _ _ => true
  | .viRead _ _ => true
  | _ => false

/-- A call that returned a status below `VI_SUCCESS`. -/
def Call.failed : Call → Bool
  | .viOpenDefaultRM status => decide (status < VI_SUCCESS)
  | .viOpen _ status => decide (status < VI_SUCCESS)
  | .viWrite _ status => decide (status < VI_SUCCESS)
  | .viRead _ status => decide (status < VI_SUCCESS)
  | _ => false

/-- A call whose status the code tests. In structured-acquisition mode the
writes of `one_swp_cmd` and `tdf_p` are not tested: their status is
overwritten by the next write. -/
def Call.checked (cmd_str : List Char) : Call → Bool
  | .viWrite payload _ => decide (cmd_str ≠ CUSTOM_READ_DATA ∨ payload = q_cmd)
  | _ => true

/-- The number of times the instrument session is closed. -/
def closes (calls : List Call) : Nat := calls.count Call.viClose

/-- A call of `viOpen` that returned success. -/
def Call.opens : Call → Bool
  | .viOpen _ status => decide (VI_SUCCESS ≤ status)
  | _ => false

/-- The instrument session was opened with success. -/
def sessionOpened (calls : List Call) : Bool := calls.any Call.opens

/-- No write and no read comes after a call that satisfies `p`. -/
def quietAfter (p : Call → Bool) (calls : List Call) : Prop :=
  calls.Pairwise (fun c e => p c = true → e.isTransfer = false)

instance (p : Call → Bool) (calls : List Call) : Decidable (quietAfter p calls) := by
  unfold quietAfter
  exact inferInstance

/-- The raw response bytes `[0, io_bytes)`, each cast to the numeric output
type. -/
def rawOutput (visa : Visa) : List ℚ :=
  (visa.response.take visa.readCount.toNat).map (fun c => (c.toNat : ℚ))

/-! ## Instruments and values of the examples -/

/-- The state in which `read_from` is entered in the examples. -/
def entryState : State ℚ :=
  { calls := [], errors := [], output := none, data := [] }

/-- An instrument on which the write of `one_swp_cmd` fails and every other
call succeeds. -/
def sweepWriteFails : Visa :=
  { respond "1.0,".toList with writeStatus := fun k _ => if k = 0 then -1 else 0 }

/-- An instrument on which the write of `q_cmd` fails and every other call
succeeds. -/
def queryWriteFails : Visa :=
  { respond "1.0,".toList with writeStatus := fun k _ => if k = 2 then -1 else 0 }

/-- An instrument on which every call succeeds and the read fills the buffer:
it stores and reports `BUFFER_CAP` bytes. -/
def fullBuffer : Visa :=
  { respond [] with response := List.replicate BUFFER_CAP '0', readCount := BUFFER_CAP }

/-- An instrument on which every call succeeds and the read stores `7,8` and
reports two bytes. -/
def shortRead : Visa :=
  { respond "7,8".toList with readCount := 2 }

/-- An instrument on which the read fails and every other call succeeds. -/
def readFails : Visa :=
  { respond [] with readStatus := -1 }

/-- An instrument on which every write fails and every other call
succeeds. -/
def commandWriteFails : Visa :=
  { respond [] with writeStatus := fun _ _ => -1 }

/-- The value of the fields used in the examples. -/
def exampleValue (f : List Char) : ℚ :=
  if f = "1.0".toList then 1 else if f = "2.5".toList then 5 / 2 else -15 / 4

/-- The text of the samples used in the examples. -/
def exampleFormat (x : ℚ) : List Char :=
  if x = 1 then "1.0".toList else if x = 5 / 2 then "2.5".toList else "-3.75".toList

/-! ## The loop of the parser, by index and by list -/

theorem parserLoop_eq_scan {α : Type} (stod : List Char → Option α)
    (buffer : Nat → Option Char) (bytes : List Char) :
    ∀ (i : Nat) (sbuffer : List Char) (data : List α),
      (∀ j, j < bytes.length → buffer (i + j) = bytes[j]?) →
      parserLoop stod buffer bytes.length i sbuffer data = scan stod bytes sbuffer data := by
  induction bytes with
  | nil => intro i sbuffer data _; rfl
  | cons c cs ih =>
    intro i sbuffer data h
    have h0 : buffer i = some c := by simpa using h 0 (by simp)
    have hs : ∀ j, j < cs.length → buffer (i + 1 + j) = cs[j]? := by
      intro j hj
      have := h (j + 1) (by simpa using hj)
      simpa [Nat.add_assoc, Nat.add_comm 1 j] using this
    simp only [List.length_cons, parserLoop, scan, h0]
    split
    · split
      · rfl
      · exact ih _ _ _ hs
    · exact ih _ _ _ hs

theorem toSizeT_natCast (n : Nat) (h : n < 2 ^ 64) : toSizeT (n : Int) = n := by
  unfold toSizeT
  omega

theorem parser_eq_parseBytes {α : Type} (stod : List Char → Option α)
    (buffer : Nat → Option Char) (bytes : List Char) (data : List α)
    (hlen : bytes.length < 2 ^ 64)
    (h : ∀ j, j < bytes.length → buffer j = bytes[j]?) :
    parser stod buffer (bytes.length : Int) data = parseBytes stod bytes data := by
  unfold parser parseBytes
  rw [toSizeT_natCast _ hlen, parserLoop_eq_scan stod buffer bytes 0 [] data]
  intro j hj
  simpa using h j hj

theorem parser_ofBytes {α : Type} (stod : List Char → Option α)
    (bytes rest : List Char) (data : List α) (hlen : bytes.length < 2 ^ 64) :
    parser stod (ofBytes (bytes ++ rest)) (bytes.length : Int) data
      = parseBytes stod bytes data := by
  apply parser_eq_parseBytes stod _ bytes data hlen
  intro j hj
  simp [ofBytes, List.getElem?_append_left hj]

/-! ## The loop on well-formed text -/

theorem c_str_of_clean (f : List Char) (h : ∀ c ∈ f, c ≠ '\x00') : c_str f = f := by
  unfold c_str
  rw [List.takeWhile_eq_self_iff]
  intro c hc
  simpa using h c hc

theorem scan_append_field {α : Type} (stod : List Char → Option α) (f : List Char)
    (hf : ∀ c ∈ f, c ≠ ',') :
    ∀ (rest sbuffer : List Char) (data : List α),
      scan stod (f ++ rest) sbuffer data = scan stod rest (sbuffer ++ f) data := by
  induction f with
  | nil => intro rest sbuffer data; simp
  | cons c cs ih =>
    intro rest sbuffer data
    have hc : c ≠ ',' := hf c (by simp)
    have hcs : ∀ d ∈ cs, d ≠ ',' := fun d hd => hf d (by simp [hd])
    have step : scan stod (c :: cs ++ rest) sbuffer data
        = scan stod (cs ++ rest) (sbuffer ++ [c]) data := by
      simp [scan, hc]
    rw [step, ih hcs]
    simp

theorem scan_terminateFields {α : Type} (stod : List Char → Option α)
    (value : List Char → α) (fields : List (List Char)) :
    (∀ f ∈ fields, cleanField f ∧ stod f = some (value f)) →
    ∀ (rest : List Char) (data : List α),
      scan stod (terminateFields fields ++ rest) [] data
        = scan stod rest [] (data ++ fields.map value) := by
  induction fields with
  | nil => intro _ rest data; simp [terminateFields]
  | cons f fs ih =>
    intro h rest data
    obtain ⟨⟨_, hcomma, hnul⟩, hv⟩ := h f (by simp)
    have hfs : ∀ g ∈ fs, cleanField g ∧ stod g = some (value g) :=
      fun g hg => h g (by simp [hg])
    simp only [terminateFields, List.append_assoc, List.cons_append]
    rw [scan_append_field stod f hcomma]
    simp only [scan, if_true, List.nil_append, c_str_of_clean f hnul, hv]
    rw [ih hfs]
    simp

theorem parseBytes_terminateFields {α : Type} (stod : List Char → Option α)
    (value : List Char → α) (fields : List (List Char))
    (h : ∀ f ∈ fields, cleanField f ∧ stod f = some (value f)) :
    parseBytes stod (terminateFields fields) [] = (fields.map value, none) := by
  have := scan_terminateFields stod value fields h [] []
  simp only [List.append_nil, List.nil_append] at this
  simp [parseBytes, this, scan]

theorem joinFields_concat (fs : List (List Char)) (g : List Char) :
    joinFields (fs ++ [g]) = terminateFields fs ++ g := by
  induction fs with
  | nil => simp [joinFields, terminateFields]
  | cons f fs ih =>
    cases fs with
    | nil => simp [joinFields, terminateFields]
    | cons f2 fs2 =>
      simp only [List.cons_append] at ih ⊢
      simp only [joinFields, terminateFields, ih]
      simp [terminateFields]

theorem parseBytes_joinFields {α : Type} (stod : List Char → Option α)
    (value : List Char → α) (fields : List (List Char))
    (h : ∀ f ∈ fields, cleanField f ∧ stod f = some (value f)) :
    parseBytes stod (joinFields fields) [] = (fields.map value, none) := by
  rcases List.eq_nil_or_concat fields with hnil | ⟨fs, g, hfg⟩
  · subst hnil
    simp [parseBytes, joinFields, scan]
  · subst hfg
    obtain ⟨⟨hne, hcomma, hnul⟩, hv⟩ := h g (by simp)
    have hfs : ∀ f ∈ fs, cleanField f ∧ stod f = some (value f) :=
      fun f hf => h f (by simp [hf])
    have hs := scan_terminateFields stod value fs hfs g []
    have hg := scan_append_field stod g hcomma [] [] ([] ++ fs.map value)
    simp only [List.append_nil, List.nil_append, scan] at hs hg
    rw [hg] at hs
    have hpos : 0 < g.length := List.length_pos.mpr hne
    rw [List.concat_eq_append, joinFields_concat]
    simp [parseBytes, hs, hpos, c_str_of_clean g hnul, hv]

theorem parseBytes_wireText {α : Type} (stod : List Char → Option α)
    (value : List Char → α) (fields : List (List Char)) (trailing : Bool)
    (h : ∀ f ∈ fields, cleanField f ∧ stod f = some (value f)) :
    parseBytes stod (wireText fields trailing) [] = (fields.map value, none) := by
  cases trailing
  · simpa [wireText] using parseBytes_joinFields stod value fields h
  · simpa [wireText] using parseBytes_terminateFields stod value fields h

/-! ## Conversions of `stodDecimal` used below -/

theorem stodDecimal_nil : stodDecimal [] = none := by decide

theorem parseBytes_example_empty : parseBytes stodDecimal [] [] = ([], none) := by
  simp [parseBytes, scan]

theorem parseBytes_example_single :
    parseBytes stodDecimal "3.14".toList [] = ([157 / 50], none) := by
  simp [parseBytes, scan, c_str, stodDecimal, isSpace, digitsValue, Char.isDigit]
  norm_num

theorem parseBytes_example_triple :
    parseBytes stodDecimal "1,2,3,".toList [] = ([1, 2, 3], none) := by
  simp [parseBytes, scan, c_str, stodDecimal, isSpace, digitsValue, Char.isDigit]

theorem parseBytes_example_trace :
    parseBytes stodDecimal "1.0,2.5,-3.75,".toList [] = ([1, 5 / 2, -15 / 4], none) := by
  simp [parseBytes, scan, c_str, stodDecimal, isSpace, digitsValue, Char.isDigit]
  norm_num

/-! ## The parser on well-formed text -/

/-- C1: on well-formed comma-separated text (every field not empty, free of
commas and NUL, and converted by `std::stod` to its value), with or without
a comma after the last field, `parser` started on an empty `data` leaves in
`data` the values of the fields, one per field and in order, and raises no
fault, whatever bytes follow the first `count` bytes of the buffer; `count`
is a `ViInt32`, hence below `2 ^ 31`. On
`""`, `"3.14"` and `"1,2,3,"` the result is `[]`, `[3.14]` and `[1,2,3]`. -/
theorem parser_wellformed {α : Type} (stod : List Char → Option α)
    (value : List Char → α) (fields : List (List Char)) (trailing : Bool)
    (rest : List Char)
    (hfields : ∀ f ∈ fields, cleanField f ∧ stod f = some (value f))
    (hcount : (wireText fields trailing).length < 2 ^ 31) :
    parser stod (ofBytes (wireText fields trailing ++ rest))
        ((wireText fields trailing).length : Int) []
      = (fields.map value, none)
    ∧ parser stodDecimal (ofBytes ("".toList ++ rest)) 0 [] = ([], none)
    ∧ parser stodDecimal (ofBytes ("3.14".toList ++ rest)) 4 [] = ([157 / 50], none)
    ∧ parser stodDecimal (ofBytes ("1,2,3,".toList ++ rest)) 6 [] = ([1, 2, 3], none) := by
  refine ⟨?_, ?_, ?_, ?_⟩
  · rw [parser_ofBytes stod _ rest [] (by omega)]
    exact parseBytes_wireText stod value fields trailing hfields
  · have h := parser_ofBytes stodDecimal [] rest [] (by simp)
    rw [parseBytes_example_empty] at h
    simpa using h
  · have h := parser_ofBytes stodDecimal "3.14".toList rest [] (by simp)
    rw [parseBytes_example_single] at h
    simpa using h
  · have h := parser_ofBytes stodDecimal "1,2,3,".toList rest [] (by simp)
    rw [parseBytes_example_triple] at h
    simpa using h

theorem exampleValue_fields :
    ∀ f ∈ ["1.0".toList, "2.5".toList, "-3.75".toList],
      cleanField f ∧ stodDecimal f = some (exampleValue f) := by
  intro f hf
  simp only [List.mem_cons, List.mem_singleton, List.not_mem_nil, or_false] at hf
  rcases hf with rfl | rfl | rfl
  · refine ⟨by simp [cleanField], ?_⟩
    simp [stodDecimal, isSpace, digitsValue, Char.isDigit, exampleValue]
  · refine ⟨by simp [cleanField], ?_⟩
    simp [stodDecimal, isSpace, digitsValue, Char.isDigit, exampleValue]
    norm_num
  · refine ⟨by simp [cleanField], ?_⟩
    simp [stodDecimal, isSpace, digitsValue, Char.isDigit, exampleValue]
    norm_num

/-- The instance of C1 at the text `1.0,2.5,-3.75,` followed by other bytes. -/
theorem parser_wellformed_witness :
    (∀ f ∈ ["1.0".toList, "2.5".toList, "-3.75".toList],
      cleanField f ∧ stodDecimal f = some (exampleValue f))
    ∧ (wireText ["1.0".toList, "2.5".toList, "-3.75".toList] true).length < 2 ^ 31
    ∧ parser stodDecimal
        (ofBytes (wireText ["1.0".toList, "2.5".toList, "-3.75".toList] true ++ "9,x".toList))
        ((wireText ["1.0".toList, "2.5".toList, "-3.75".toList] true).length : Int) []
      = (["1.0".toList, "2.5".toList, "-3.75".toList].map exampleValue, none) :=
  ⟨exampleValue_fields, by decide,
    (parser_wellformed stodDecimal exampleValue
      ["1.0".toList, "2.5".toList, "-3.75".toList] true "9,x".toList
      exampleValue_fields (by decide)).1⟩

/-! ## Round trip -/

/-- C7: when every sample of `xs` is formatted as text that `std::stod`
converts back to the sample (the text not empty, free of commas and NUL), the
formatted trace, with or without a comma after the last sample, is parsed by
`parser` from an empty `data` and with `count` the length of the text into
exactly `xs`, in order. -/
theorem parser_roundtrip {α : Type} (stod : List Char → Option α)
    (fmt : α → List Char) (xs : List α) (trailing : Bool)
    (hfmt : ∀ x ∈ xs, cleanField (fmt x) ∧ stod (fmt x) = some x)
    (hcount : (formatTrace fmt xs trailing).length < 2 ^ 31) :
    parser stod (ofBytes (formatTrace fmt xs trailing))
        ((formatTrace fmt xs trailing).length : Int) []
      = (xs, none) := by
  have hp := parser_ofBytes stod (formatTrace fmt xs trailing) [] [] (by omega)
  rw [List.append_nil] at hp
  rw [hp]
  cases xs with
  | nil => cases trailing <;> simp [formatTrace, wireText, joinFields, terminateFields, parseBytes, scan]
  | cons x0 xs0 =>
    have hval : ∀ f ∈ (x0 :: xs0).map fmt,
        cleanField f ∧ stod f = some ((stod f).getD x0) := by
      intro f hf
      obtain ⟨x, hx, rfl⟩ := List.mem_map.mp hf
      obtain ⟨hc, hs⟩ := hfmt x hx
      exact ⟨hc, by simp [hs]⟩
    have := parseBytes_wireText stod (fun f => (stod f).getD x0) ((x0 :: xs0).map fmt)
      trailing hval
    rw [formatTrace, this, List.map_map]
    congr 1
    conv_rhs => rw [← List.map_id (x0 :: xs0)]
    apply List.map_congr_left
    intro x hx
    simp [(hfmt x hx).2]

theorem exampleFormat_samples :
    ∀ x ∈ [(1 : ℚ), 5 / 2, -15 / 4],
      cleanField (exampleFormat x) ∧ stodDecimal (exampleFormat x) = some x := by
  intro x hx
  simp only [List.mem_cons, List.mem_singleton, List.not_mem_nil, or_false] at hx
  rcases hx with rfl | rfl | rfl
  · refine ⟨by simp [cleanField, exampleFormat], ?_⟩
    simp [stodDecimal, isSpace, digitsValue, Char.isDigit, exampleFormat]
  · have h1 : ¬ ((5 : ℚ) / 2 = 1) := by norm_num
    refine ⟨by simp [cleanField, exampleFormat, h1], ?_⟩
    simp [stodDecimal, isSpace, digitsValue, Char.isDigit, exampleFormat, h1]
    norm_num
  · have h1 : ¬ ((-15 : ℚ) / 4 = 1) := by norm_num
    have h2 : ¬ ((-15 : ℚ) / 4 = 5 / 2) := by norm_num
    refine ⟨by simp [cleanField, exampleFormat, h1, h2], ?_⟩
    simp [stodDecimal, isSpace, digitsValue, Char.isDigit, exampleFormat, h1, h2]
    norm_num

theorem exampleFormat_length :
    (formatTrace exampleFormat [(1 : ℚ), 5 / 2, -15 / 4] false).length < 2 ^ 31 := by
  have h1 : ¬ ((5 : ℚ) / 2 = 1) := by norm_num
  have h2 : ¬ ((-15 : ℚ) / 4 = 1) := by norm_num
  have h3 : ¬ ((-15 : ℚ) / 4 = 5 / 2) := by norm_num
  simp [formatTrace, wireText, joinFields, exampleFormat, h1, h2, h3]

/-- The instance of C7 at the samples `1`, `2.5`, `-3.75`, formatted without
a comma after the last one. -/
theorem parser_roundtrip_witness :
    (∀ x ∈ [(1 : ℚ), 5 / 2, -15 / 4],
      cleanField (exampleFormat x) ∧ stodDecimal (exampleFormat x) = some x)
    ∧ (formatTrace exampleFormat [(1 : ℚ), 5 / 2, -15 / 4] false).length < 2 ^ 31
    ∧ parser stodDecimal (ofBytes (formatTrace exampleFormat [(1 : ℚ), 5 / 2, -15 / 4] false))
        ((formatTrace exampleFormat [(1 : ℚ), 5 / 2, -15 / 4] false).length : Int) []
      = ([(1 : ℚ), 5 / 2, -15 / 4], none) :=
  ⟨exampleFormat_samples, exampleFormat_length,
    parser_roundtrip stodDecimal exampleFormat [(1 : ℚ), 5 / 2, -15 / 4] false
      exampleFormat_samples exampleFormat_length⟩

/-! ## Empty tokens -/

theorem scan_append {α : Type} (stod : List Char → Option α) (bs more : List Char) :
    ∀ (sbuffer : List Char) (data : List α),
      scan stod (bs ++ more) sbuffer data =
        match scan stod bs sbuffer data with
        | (sb, d, none) => scan stod more sb d
        | (sb, d, some f) => (sb, d, some f) := by
  induction bs with
  | nil => intro sbuffer data; simp [scan]
  | cons c cs ih =>
    intro sbuffer data
    simp only [List.cons_append, scan]
    split
    · split
      · rfl
      · exact ih _ _
    · exact ih _ _

theorem scan_fault_conversion {α : Type} (stod : List Char → Option α) (bs : List Char) :
    ∀ (sbuffer : List Char) (data : List α) (sb : List Char) (d : List α) (f : Fault),
      scan stod bs sbuffer data = (sb, d, some f) → ∃ tok, f = Fault.conversion tok := by
  induction bs with
  | nil => intro sbuffer data sb d f h; simp [scan] at h
  | cons c cs ih =>
    intro sbuffer data sb d f h
    simp only [scan] at h
    split at h
    · split at h
      · simp only [Prod.mk.injEq, Option.some.injEq] at h
        exact ⟨_, h.2.2.symm⟩
      · exact ih _ _ _ _ _ h
    · exact ih _ _ _ _ _ h

theorem parseBytes_leading_comma {α : Type} (stod : List Char → Option α)
    (hstod : stod [] = none) (t : List Char) (data : List α) :
    parseBytes stod (',' :: t) data = (data, some (Fault.conversion [])) := by
  simp [parseBytes, scan, c_str, hstod]

theorem parseBytes_comma_pair {α : Type} (stod : List Char → Option α)
    (hstod : stod [] = none) (pre post : List Char) (data : List α) :
    (∃ tok, (parseBytes stod (pre ++ ',' :: ',' :: post) data).2
        = some (Fault.conversion tok))
    ∧ ((parseBytes stod (pre ++ [',']) data).2 = none →
        (parseBytes stod (pre ++ ',' :: ',' :: post) data).2
          = some (Fault.conversion [])) := by
  have hfull := scan_append stod pre (',' :: ',' :: post) [] data
  have hpre := scan_append stod pre [','] [] data
  rcases hscan : scan stod pre [] data with ⟨sb, d, _ | f⟩
  · rw [hscan] at hfull hpre
    simp only [scan] at hfull hpre
    cases hconv : stod (c_str sb) with
    | none =>
      simp only [hconv, if_true] at hfull hpre
      refine ⟨⟨c_str sb, by simp [parseBytes, hfull]⟩, ?_⟩
      intro hok
      simp [parseBytes, hpre] at hok
    | some v =>
      have hnil : c_str [] = [] := rfl
      simp only [hconv, if_true, hnil, hstod] at hfull
      refine ⟨⟨[], by simp [parseBytes, hfull]⟩, ?_⟩
      intro _
      simp [parseBytes, hfull]
  · rw [hscan] at hfull hpre
    simp only at hfull hpre
    obtain ⟨tok, htok⟩ := scan_fault_conversion stod pre [] data sb d f hscan
    refine ⟨⟨tok, by simp [parseBytes, hfull, htok]⟩, ?_⟩
    intro hok
    simp [parseBytes, hpre] at hok

/-- C6, as amended: when the first `count` bytes begin with a comma or
contain two commas in a row, `parser` raises a conversion fault and returns
no sequence. The text it fails to convert is the empty token when the bytes
begin with a comma, and when the bytes up to the first comma of the pair
parse without fault; otherwise it is the token of an earlier field. -/
theorem parser_empty_token {α : Type} (stod : List Char → Option α)
    (hstod : stod [] = none) (bytes rest : List Char) (data : List α)
    (hcount : bytes.length < 2 ^ 31)
    (hshape : (∃ t, bytes = ',' :: t) ∨ ∃ pre post, bytes = pre ++ ',' :: ',' :: post) :
    (∃ tok, (parser stod (ofBytes (bytes ++ rest)) (bytes.length : Int) data).2
        = some (Fault.conversion tok))
    ∧ ((∃ t, bytes = ',' :: t) →
        parser stod (ofBytes (bytes ++ rest)) (bytes.length : Int) data
          = (data, some (Fault.conversion [])))
    ∧ (∀ pre post, bytes = pre ++ ',' :: ',' :: post →
        (parser stod (ofBytes (pre ++ [','])) ((pre ++ [',']).length : Int) data).2 = none →
        (parser stod (ofBytes (bytes ++ rest)) (bytes.length : Int) data).2
          = some (Fault.conversion [])) := by
  rw [parser_ofBytes stod bytes rest data (by omega)]
  refine ⟨?_, ?_, ?_⟩
  · rcases hshape with ⟨t, rfl⟩ | ⟨pre, post, rfl⟩
    · exact ⟨[], by rw [parseBytes_leading_comma stod hstod]⟩
    · exact (parseBytes_comma_pair stod hstod pre post data).1
  · rintro ⟨t, rfl⟩
    exact parseBytes_leading_comma stod hstod t data
  · intro pre post hb hok
    subst hb
    have hlen : (pre ++ [',']).length < 2 ^ 64 := by
      simp only [List.length_append, List.length_cons, List.length_nil] at hcount ⊢
      omega
    have hp := parser_ofBytes stod (pre ++ [',']) [] data hlen
    rw [List.append_nil] at hp
    rw [hp] at hok
    exact (parseBytes_comma_pair stod hstod pre post data).2 hok

/-- The instance of C6 at the text `1,,2`. -/
theorem parser_empty_token_witness :
    stodDecimal [] = none
    ∧ "1,,2".toList.length < 2 ^ 31
    ∧ ((∃ t, "1,,2".toList = ',' :: t)
        ∨ ∃ pre post, "1,,2".toList = pre ++ ',' :: ',' :: post)
    ∧ ∃ tok, (parser stodDecimal (ofBytes ("1,,2".toList ++ [])) ("1,,2".toList.length : Int)
        []).2 = some (Fault.conversion tok) :=
  ⟨stodDecimal_nil, by decide, Or.inr ⟨['1'], ['2'], rfl⟩,
    (parser_empty_token stodDecimal stodDecimal_nil "1,,2".toList [] [] (by decide)
      (Or.inr ⟨['1'], ['2'], rfl⟩)).1⟩

/-- C6 as stated fails: the text `x,,` contains two commas in a row, and
`parser` fails on the token `x` before it reaches an empty token. -/
theorem parser_empty_token_counterexample :
    "x,,".toList = "x".toList ++ ',' :: ',' :: []
    ∧ parser stodDecimal (ofBytes "x,,".toList) 3 []
        = ([], some (Fault.conversion "x".toList))
    ∧ Fault.conversion "x".toList ≠ Fault.conversion [] := by
  refine ⟨rfl, ?_, by decide⟩
  have h := parser_ofBytes stodDecimal "x,,".toList [] [] (by simp)
  rw [List.append_nil] at h
  have hp : parseBytes stodDecimal "x,,".toList [] = ([], some (Fault.conversion "x".toList)) := by
    simp [parseBytes, scan, c_str, stodDecimal, isSpace, Char.isDigit]
  rw [hp] at h
  simpa using h

/-! ## The buffer after a read -/

theorem parser_bufferAfterRead {α : Type} (stod : List Char → Option α) (visa : Visa)
    (n : Nat) (data : List α) (hcount : visa.readCount = n)
    (hn : n ≤ visa.response.length) (hcap : visa.response.length ≤ BUFFER_CAP) :
    parser stod (bufferAfterRead visa) visa.readCount data
      = parser stod (ofBytes (visa.response.take n)) (n : Int) data := by
  have hcap2 : BUFFER_CAP < 2 ^ 64 := by decide
  have hlen : (visa.response.take n).length = n := by simp [hn]
  have h1 := parser_eq_parseBytes stod (bufferAfterRead visa) (visa.response.take n) data
    (by omega) (by
      intro j hj
      rw [hlen] at hj
      have hj1 : j < BUFFER_CAP := by omega
      have hj2 : j < visa.response.length := by omega
      simp [bufferAfterRead, hj1, List.getElem?_take, hj, hj2, List.getD_eq_getElem?_getD])
  have h2 := parser_ofBytes stod (visa.response.take n) [] data (by omega)
  rw [List.append_nil] at h2
  rw [hlen] at h1 h2
  rw [hcount, h1, h2]

/-! ## Structured acquisition, end to end -/

theorem operator_structured_ok {α : Type} (host : Host) (stod : List Char → Option α)
    (visa : Visa) (gpib_addr_str type_str : List Char) (data : List α)
    (hrm : VI_SUCCESS ≤ visa.rmStatus)
    (hopen : VI_SUCCESS ≤ visa.openStatus gpib_addr_str)
    (hwrite : VI_SUCCESS ≤ visa.writeStatus 2 q_cmd)
    (hread : VI_SUCCESS ≤ visa.readStatus) :
    (operator host stod visa gpib_addr_str CUSTOM_READ_DATA type_str data).1.output
      = match parser stod (bufferAfterRead visa) visa.readCount [] with
        | (parsed, none) => some parsed
        | (_, some _) => none := by
  have h1 : ¬ visa.rmStatus < VI_SUCCESS := not_lt.mpr hrm
  have h2 : ¬ visa.openStatus gpib_addr_str < VI_SUCCESS := not_lt.mpr hopen
  have h3 : ¬ visa.writeStatus 2 q_cmd < VI_SUCCESS := not_lt.mpr hwrite
  simp only [operator, read_from, h1, h2, h3, if_false, if_true, ge_iff_le, hread,
    State.call, vectorClear]
  rcases hp : parser stod (bufferAfterRead visa) visa.readCount [] with ⟨parsed, _ | f⟩
  · simp [deliver, State.call]
  · simp

/-- C2: in structured-acquisition mode, for every instrument address, when
the resource-manager open, the instrument open, every write and the read
succeed, and the read stored `io_bytes` bytes of response in the buffer,
`output[0]` holds exactly the sequence `parser` makes from the first
`io_bytes` bytes of the response (and there is no output when `parser`
faults). For the response `1.0,2.5,-3.75,` at address `GPIB0::1::INSTR` the
output is `[1.0, 2.5, -3.75]`. -/
theorem operator_structured {α : Type} (host : Host) (stod : List Char → Option α)
    (visa : Visa) (gpib_addr_str type_str : List Char) (data : List α)
    (dataQ : List ℚ) (n : Nat)
    (hrm : VI_SUCCESS ≤ visa.rmStatus)
    (hopen : VI_SUCCESS ≤ visa.openStatus gpib_addr_str)
    (hwrite : ∀ k payload, VI_SUCCESS ≤ visa.writeStatus k payload)
    (hread : VI_SUCCESS ≤ visa.readStatus)
    (hcount : visa.readCount = n) (hn : n ≤ visa.response.length)
    (hcap : visa.response.length ≤ BUFFER_CAP) :
    (operator host stod visa gpib_addr_str CUSTOM_READ_DATA type_str data).1.output
      = (match parser stod (ofBytes (visa.response.take n)) (n : Int) [] with
        | (parsed, none) => some parsed
        | (_, some _) => none)
    ∧ (operator host stodDecimal (respond "1.0,2.5,-3.75,".toList)
        "GPIB0::1::INSTR".toList CUSTOM_READ_DATA type_str dataQ).1.output
      = some [1, 5 / 2, -15 / 4] := by
  constructor
  · rw [operator_structured_ok host stod visa gpib_addr_str type_str data hrm hopen
      (hwrite 2 q_cmd) hread, parser_bufferAfterRead stod visa n [] hcount hn hcap]
  · rw [operator_structured_ok host stodDecimal _ _ type_str dataQ (by decide) (by decide)
      (by decide) (by decide)]
    have hb := parser_bufferAfterRead stodDecimal (respond "1.0,2.5,-3.75,".toList) 14 []
      (by decide) (by decide) (by decide)
    have hp := parser_ofBytes stodDecimal "1.0,2.5,-3.75,".toList [] [] (by decide)
    rw [List.append_nil, parseBytes_example_trace] at hp
    have ht : (respond "1.0,2.5,-3.75,".toList).response.take 14 = "1.0,2.5,-3.75,".toList := by
      decide
    have hl : (("1.0,2.5,-3.75,".toList.length : Nat) : Int) = ((14 : Nat) : Int) := by decide
    rw [ht, ← hl, hp] at hb
    rw [hb]

/-- The instance of C2 at an instrument that stores `7,8` and reports two
bytes: the output is `[7]`. -/
theorem operator_structured_witness :
    VI_SUCCESS ≤ shortRead.rmStatus
    ∧ VI_SUCCESS ≤ shortRead.openStatus "GPIB0::1::INSTR".toList
    ∧ VI_SUCCESS ≤ shortRead.readStatus
    ∧ shortRead.readCount = (2 : Nat)
    ∧ (operator ⟨true⟩ stodDecimal shortRead
        "GPIB0::1::INSTR".toList CUSTOM_READ_DATA [] [9]).1.output
      = (match parser stodDecimal (ofBytes (shortRead.response.take 2)) ((2 : Nat) : Int) [] with
        | (parsed, none) => some parsed
        | (_, some _) => none) :=
  ⟨by decide, by decide, by decide, by decide,
    (operator_structured ⟨true⟩ stodDecimal shortRead
      "GPIB0::1::INSTR".toList [] [9] [] 2 (by decide) (by decide) (fun _ _ => Int.le_refl 0)
      (by decide) (by decide) (by decide) (by decide)).1⟩

/-! ## State across invocations -/

/-- C9: the member `data` left behind by an earlier invocation has no effect:
for any two contents of `data` at entry and the same inputs, host and
instrument behaviour, `operator()` makes the same calls, raises the same
errors, leaves the same `data` and produces the same output. In particular
an invocation that follows any earlier invocation on the same object behaves
as on a fresh object, so its output holds no sample parsed earlier. -/
theorem operator_ignores_previous_data {α : Type} (host earlierHost : Host)
    (stod : List Char → Option α) (visa earlierVisa : Visa)
    (gpib_addr_str cmd_str type_str : List Char)
    (earlier_addr earlier_cmd earlier_type : List Char) (data₁ data₂ : List α) :
    operator host stod visa gpib_addr_str cmd_str type_str data₁
      = operator host stod visa gpib_addr_str cmd_str type_str data₂
    ∧ operator host stod visa gpib_addr_str cmd_str type_str
        (operator earlierHost stod earlierVisa earlier_addr earlier_cmd earlier_type data₁).1.data
      = operator host stod visa gpib_addr_str cmd_str type_str [] := by
  constructor <;> simp only [operator, vectorClear]

/-! ## Failures in structured acquisition -/

/-- C4: in structured-acquisition mode the failure of the query write raises
no error to the host, and `operator()` goes on to assign the empty array to
`output[0]` and returns; the failure of the read raises an error and, when
the host hands control back, the empty array is assigned all the same. -/
theorem operator_query_write_failure {α : Type} (host : Host)
    (stod : List Char → Option α) (gpib_addr_str type_str : List Char) (data : List α) :
    (operator host stod queryWriteFails gpib_addr_str CUSTOM_READ_DATA type_str data).1.errors
      = []
    ∧ (operator host stod queryWriteFails gpib_addr_str CUSTOM_READ_DATA type_str data).1.output
      = some []
    ∧ (operator host stod queryWriteFails gpib_addr_str CUSTOM_READ_DATA type_str data).2
      = Flow.ret ()
    ∧ (operator ⟨true⟩ stod readFails gpib_addr_str CUSTOM_READ_DATA type_str data).1.errors
      = ["Error reading from instrument with read_from()"]
    ∧ (operator ⟨true⟩ stod readFails gpib_addr_str CUSTOM_READ_DATA type_str data).1.output
      = some [] := by
  simp [operator, read_from, queryWriteFails, readFails, respond, deliver, State.call,
    State.PRINT_ERR, vectorClear, VI_SUCCESS]

/-! ## Passthrough -/

theorem operator_passthrough_ok {α : Type} (host : Host) (stod : List Char → Option α)
    (visa : Visa) (gpib_addr_str cmd_str type_str : List Char) (data : List α)
    (hcmd : cmd_str ≠ CUSTOM_READ_DATA)
    (hrm : VI_SUCCESS ≤ visa.rmStatus)
    (hopen : VI_SUCCESS ≤ visa.openStatus gpib_addr_str)
    (hwrite : VI_SUCCESS ≤ visa.writeStatus 0 cmd_str)
    (hread : VI_SUCCESS ≤ visa.readStatus) :
    ((operator host stod visa gpib_addr_str cmd_str type_str data).1.output
        = if terminatorIndex visa.readCount BUFFER_CAP < BUFFER_CAP then some [] else none)
    ∧ (operator host stod visa gpib_addr_str cmd_str type_str data).2
        = if terminatorIndex visa.readCount BUFFER_CAP < BUFFER_CAP then Flow.ret ()
          else Flow.fault (Fault.outOfBounds (terminatorIndex visa.readCount BUFFER_CAP)) := by
  have h1 : ¬ visa.rmStatus < VI_SUCCESS := not_lt.mpr hrm
  have h2 : ¬ visa.openStatus gpib_addr_str < VI_SUCCESS := not_lt.mpr hopen
  have h3 : ¬ visa.writeStatus 0 cmd_str < VI_SUCCESS := not_lt.mpr hwrite
  have h4 : ¬ visa.readStatus < VI_SUCCESS := not_lt.mpr hread
  simp only [operator, hcmd, h1, h2, h3, h4, if_false, deliver, State.call, vectorClear]
  constructor <;> split <;> rfl

theorem terminatorIndex_in_range (io_bytes : Int) (hlow : 0 ≤ io_bytes)
    (hhigh : io_bytes < BUFFER_CAP) : terminatorIndex io_bytes BUFFER_CAP < BUFFER_CAP := by
  have hcap : (BUFFER_CAP : Int) = 1048576 := by decide
  have hcapn : BUFFER_CAP = 1048576 := by decide
  unfold terminatorIndex toUInt32
  rw [hcap] at hhigh
  rw [hcapn]
  split <;> omega

theorem idn_not_sentinel : "*IDN?".toList ≠ CUSTOM_READ_DATA := by decide

/-- C5: when the read reports `io_bytes = BUFSIZE`, the NUL is stored at
index `BUFSIZE`, one past the last element of `buffer`. -/
theorem nul_terminator_out_of_bounds {α : Type} (host : Host)
    (stod : List Char → Option α) (gpib_addr_str type_str : List Char) (data : List α) :
    terminatorIndex (BUFFER_CAP : Int) BUFFER_CAP = BUFFER_CAP
    ∧ ¬ terminatorIndex (BUFFER_CAP : Int) BUFFER_CAP < BUFFER_CAP
    ∧ (operator host stod fullBuffer gpib_addr_str "*IDN?".toList type_str data).2
      = Flow.fault (Fault.outOfBounds BUFFER_CAP) := by
  have h : terminatorIndex (BUFFER_CAP : Int) BUFFER_CAP = BUFFER_CAP := by decide
  have hc : fullBuffer.readCount = (BUFFER_CAP : Int) := rfl
  refine ⟨h, by rw [h]; exact Nat.lt_irrefl _, ?_⟩
  rw [(operator_passthrough_ok host stod fullBuffer gpib_addr_str "*IDN?".toList type_str data
    idn_not_sentinel (by decide) (Int.le_refl 0) (Int.le_refl 0) (by decide)).2, hc, h,
    if_neg (Nat.lt_irrefl _)]

/-- C8, as amended: in passthrough mode, when the resource-manager open, the
instrument open, the write and the read succeed and `io_bytes` lies in
`[0, BUFSIZE)`, `operator()` returns with the empty array in `output[0]`,
whatever bytes the instrument answered. -/
theorem operator_passthrough {α : Type} (host : Host) (stod : List Char → Option α)
    (visa : Visa) (gpib_addr_str cmd_str type_str : List Char) (data : List α)
    (hcmd : cmd_str ≠ CUSTOM_READ_DATA)
    (hrm : VI_SUCCESS ≤ visa.rmStatus)
    (hopen : VI_SUCCESS ≤ visa.openStatus gpib_addr_str)
    (hwrite : VI_SUCCESS ≤ visa.writeStatus 0 cmd_str)
    (hread : VI_SUCCESS ≤ visa.readStatus)
    (hlow : 0 ≤ visa.readCount) (hhigh : visa.readCount < BUFFER_CAP) :
    (operator host stod visa gpib_addr_str cmd_str type_str data).1.output = some []
    ∧ (operator host stod visa gpib_addr_str cmd_str type_str data).2 = Flow.ret () := by
  have hidx := terminatorIndex_in_range visa.readCount hlow hhigh
  have h := operator_passthrough_ok host stod visa gpib_addr_str cmd_str type_str data
    hcmd hrm hopen hwrite hread
  rw [if_pos hidx, if_pos hidx] at h
  exact h

/-- The instance of C8 at an instrument that answers `5`. -/
theorem operator_passthrough_witness :
    "*IDN?".toList ≠ CUSTOM_READ_DATA
    ∧ (0 ≤ (respond "5".toList).readCount ∧ (respond "5".toList).readCount < BUFFER_CAP)
    ∧ (operator ⟨true⟩ stodDecimal (respond "5".toList) "GPIB0::1::INSTR".toList
        "*IDN?".toList [] []).1.output = some [] :=
  ⟨by decide, by decide,
    (operator_passthrough ⟨true⟩ stodDecimal (respond "5".toList) "GPIB0::1::INSTR".toList
      "*IDN?".toList [] [] (by decide) (by decide) (by decide) (by decide) (by decide)
      (by decide) (by decide)).1⟩

/-- C8 as stated fails: the instrument answers the byte `5`, the write and
the read succeed, and the output is the empty array, not the array `[53]` of
the response bytes. -/
theorem operator_passthrough_counterexample :
    "*IDN?".toList ≠ CUSTOM_READ_DATA
    ∧ rawOutput (respond "5".toList) = [53]
    ∧ (operator ⟨true⟩ stodDecimal (respond "5".toList) "GPIB0::1::INSTR".toList
        "*IDN?".toList [] []).1.output = some []
    ∧ (operator ⟨true⟩ stodDecimal (respond "5".toList) "GPIB0::1::INSTR".toList
        "*IDN?".toList [] []).1.output ≠ some (rawOutput (respond "5".toList)) := by
  have hraw : rawOutput (respond "5".toList) = [53] := by
    simp [rawOutput, respond]
  have hidx : terminatorIndex (respond "5".toList).readCount BUFFER_CAP < BUFFER_CAP :=
    terminatorIndex_in_range _ (by decide) (by decide)
  have hout := (operator_passthrough_ok ⟨true⟩ stodDecimal (respond "5".toList)
    "GPIB0::1::INSTR".toList "*IDN?".toList [] [] idn_not_sentinel (by decide) (by decide)
    (by decide) (by decide)).1
  rw [if_pos hidx] at hout
  refine ⟨idn_not_sentinel, hraw, hout, ?_⟩
  rw [hout, hraw]
  simp

/-! ## The structured read -/

/-- C10, as amended: `read_from` always issues the three writes
`one_swp_cmd`, `tdf_p`, `q_cmd` in this order, whatever the statuses of the
first two; it then reads once exactly when the third write succeeded and runs
`parser` exactly when that read succeeded. It returns the status of the third
write when that write failed; the status of the read when the read failed
and the host hands control back, or when the read succeeded and `parser`
raised no fault. A fault of `parser` leaves `read_from` without a return
value, as does a host that keeps control. The statuses of the two setup
writes influence neither the way `read_from` is left nor `data`. -/
theorem read_from_sequence {α : Type} (host : Host) (stod : List Char → Option α)
    (visa : Visa) (s : State α) (a b : Int) :
    (read_from host stod visa s).1.calls
      = s.calls ++
        [Call.viWrite one_swp_cmd (visa.writeStatus 0 one_swp_cmd),
          Call.viWrite tdf_p (visa.writeStatus 1 tdf_p),
          Call.viWrite q_cmd (visa.writeStatus 2 q_cmd)] ++
        (if visa.writeStatus 2 q_cmd < VI_SUCCESS then
          [Call.viStatusDesc (visa.writeStatus 2 q_cmd)]
        else if visa.readStatus < VI_SUCCESS then
          [Call.viRead BUFFER_CAP visa.readStatus, Call.viStatusDesc visa.readStatus]
        else [Call.viRead BUFFER_CAP visa.readStatus])
    ∧ (read_from host stod visa s).1.data
      = (if visa.writeStatus 2 q_cmd < VI_SUCCESS ∨ visa.readStatus < VI_SUCCESS then s.data
        else (parser stod (bufferAfterRead visa) visa.readCount s.data).1)
    ∧ (read_from host stod visa s).2
      = (if visa.writeStatus 2 q_cmd < VI_SUCCESS then Flow.ret (visa.writeStatus 2 q_cmd)
        else if visa.readStatus < VI_SUCCESS then
          (if host.errorReturns then Flow.ret visa.readStatus else Flow.unwind)
        else
          match (parser stod (bufferAfterRead visa) visa.readCount s.data).2 with
          | none => Flow.ret visa.readStatus
          | some f => Flow.fault f)
    ∧ (read_from host stod
          { visa with writeStatus := fun k payload =>
              if k = 0 then a else if k = 1 then b else visa.writeStatus k payload } s).2
        = (read_from host stod visa s).2
    ∧ (read_from host stod
          { visa with writeStatus := fun k payload =>
              if k = 0 then a else if k = 1 then b else visa.writeStatus k payload } s).1.data
        = (read_from host stod visa s).1.data := by
  have hbuf : bufferAfterRead
      { visa with writeStatus := fun k payload =>
          if k = 0 then a else if k = 1 then b else visa.writeStatus k payload }
      = bufferAfterRead visa := rfl
  simp only [read_from, State.call, State.PRINT_ERR, ge_iff_le, hbuf]
  by_cases h3 : visa.writeStatus 2 q_cmd < VI_SUCCESS
  · simp [h3]
  · by_cases h4 : visa.readStatus < VI_SUCCESS
    · have h4n : ¬ VI_SUCCESS ≤ visa.readStatus := not_le.mpr h4
      cases hh : host.errorReturns <;> simp [h3, h4, h4n, hh]
    · have h4p : VI_SUCCESS ≤ visa.readStatus := not_lt.mp h4
      simp only [h3, h4, h4p, if_true, if_false, or_self]
      rcases hp : parser stod (bufferAfterRead visa) visa.readCount s.data
        with ⟨d, _ | f⟩ <;> simp [h3]

/-- C10 as stated fails: the instrument answers `,`, every call succeeds,
and `read_from` is left by the conversion fault of `parser`, not by a return
of the status of the read. -/
theorem read_from_sequence_counterexample :
    VI_SUCCESS ≤ (respond [',']).writeStatus 2 q_cmd
    ∧ VI_SUCCESS ≤ (respond [',']).readStatus
    ∧ (read_from ⟨true⟩ stodDecimal (respond [',']) entryState).2
      = Flow.fault (Fault.conversion [])
    ∧ (read_from ⟨true⟩ stodDecimal (respond [',']) entryState).2
      ≠ Flow.ret (respond [',']).readStatus := by
  have hb := parser_bufferAfterRead stodDecimal (respond [',']) 1 []
    (by decide) (by decide) (by decide)
  have ht : (respond [',']).response.take 1 = [','] := by decide
  have hp := parser_ofBytes stodDecimal [','] [] [] (by decide)
  have hl : (([','].length : Nat) : Int) = ((1 : Nat) : Int) := rfl
  rw [List.append_nil, parseBytes_leading_comma stodDecimal stodDecimal_nil] at hp
  rw [ht, ← hl, hp] at hb
  have hf : (read_from ⟨true⟩ stodDecimal (respond [',']) entryState).2
      = Flow.fault (Fault.conversion []) := by
    have h3 : ¬ (respond [',']).writeStatus 2 q_cmd < VI_SUCCESS := by decide
    have h4 : (respond [',']).readStatus ≥ VI_SUCCESS := by decide
    have he : entryState.data = [] := rfl
    simp only [read_from, State.call, h3, h4, if_true, if_false, he, hb]
  refine ⟨by decide, by decide, hf, ?_⟩
  rw [hf]
  simp

/-! ## The life of the session -/

/-- When the host keeps control after an error, the close that follows
`PRINT_ERR` is not reached: a passthrough command whose write fails leaves
the opened session without a close. -/
theorem operator_unwind_skips_close :
    sessionOpened (operator ⟨false⟩ stodDecimal commandWriteFails "GPIB0::1::INSTR".toList
        "*IDN?".toList [] []).1.calls = true
    ∧ closes (operator ⟨false⟩ stodDecimal commandWriteFails "GPIB0::1::INSTR".toList
        "*IDN?".toList [] []).1.calls = 0
    ∧ (operator ⟨false⟩ stodDecimal commandWriteFails "GPIB0::1::INSTR".toList
        "*IDN?".toList [] []).2 = Flow.unwind := by
  decide

end Rvisa
